import Mathlib

/-!
Verification of the Aave action provider core: amount codec
(`format_amount_with_decimals` / `format_amount_from_decimals`), account
metrics (`get_user_account_data`), risk classification, and the four
mutating operations (supply / withdraw / borrow / repay) of
`AaveActionProvider`, shallowly embedded from
`coinbase_agentkit/action_providers/aave/{utils.py,aave_action_provider.py}`.

Python `decimal.Decimal` arithmetic is embedded exactly: a finite decimal
value is a coefficient/exponent pair, division and multiplication round to
the default context's 28 significant digits with ROUND_HALF_EVEN, and
`str` rendering follows the plain/scientific notation rule of the decimal
specification (scientific when the exponent is positive or the adjusted
exponent is below -6).  The default context's exponent limits
(Emin/Emax = ±999999) are not modelled; they are unreachable for token
decimal precisions (u8) and for the claims settled here.
-/

deriving instance DecidableEq for Except

set_option maxRecDepth 40000

namespace AaveSpec

/-! ### Decimal digit primitives -/

/-- The character for a single decimal digit (only used with arguments below 10). -/
def digitChar : Nat → Char
  | 0 => '0'
  | 1 => '1'
  | 2 => '2'
  | 3 => '3'
  | 4 => '4'
  | 5 => '5'
  | 6 => '6'
  | 7 => '7'
  | 8 => '8'
  | 9 => '9'
  | _ => '?'

/-- Numeric value of an ASCII digit character. -/
def charVal (ch : Char) : Nat := ch.toNat - 48

/-- ASCII digit test (Python `int`/`Decimal` digit acceptance, restricted to
ASCII; exotic Unicode digits accepted by CPython are not modelled). -/
def isDigitChar (ch : Char) : Bool := 48 ≤ ch.toNat && ch.toNat ≤ 57

/-- Little-endian base-10 digits, by fuel-structural recursion (the fuel is
consumed once per digit, so kernel reduction is cheap even for large inputs). -/
def natDigitsAux : Nat → Nat → List Nat
  | 0, _ => []
  | fuel + 1, n => if n = 0 then [] else n % 10 :: natDigitsAux fuel (n / 10)

/-- Little-endian base-10 digits of `n` (`[]` for `0`). -/
def natDigitsLE (n : Nat) : List Nat := natDigitsAux n n

/-- The decimal-numeral character list for `n`, most significant digit first;
`0` renders as `"0"`.  This is `str(n)` for a Python non-negative `int`. -/
def natDigitChars (n : Nat) : List Char :=
  if n = 0 then ['0'] else (natDigitsLE n).reverse.map digitChar

/-- Number of decimal digits of `n` (`0` for `n = 0`); the number of
significant digits of a decimal coefficient. -/
def numDigits (n : Nat) : Nat := (natDigitsLE n).length

/-- Count of trailing zero digits, by fuel-structural recursion. -/
def tzAux : Nat → Nat → Nat
  | 0, _ => 0
  | fuel + 1, n => if n ≠ 0 ∧ n % 10 = 0 then tzAux fuel (n / 10) + 1 else 0

/-- Number of trailing zero decimal digits of `n` (`0` for `n = 0`). -/
def trailingZeros (n : Nat) : Nat := tzAux n n

/-- Positional value of a most-significant-first digit-character list
(the value computed by Python `int` on a digit string). -/
def digitsVal (l : List Char) : Nat :=
  l.foldl (fun acc ch => acc * 10 + charVal ch) 0

/-- Parse a non-empty all-digit character list; `none` models `ValueError`. -/
def parseDigits (l : List Char) : Option Nat :=
  if l ≠ [] ∧ l.all isDigitChar then some (digitsVal l) else none

/-- Python `int(str)`: optional sign followed by digits.  (CPython also
tolerates surrounding whitespace and inner underscores; those edge cases are
not modelled and are irrelevant to every claim settled below.) -/
def parsePyInt (l : List Char) : Option Int :=
  match l with
  | [] => none
  | ch :: r =>
    if ch = '-' then (parseDigits r).map (fun n => -(n : Int))
    else if ch = '+' then (parseDigits r).map (fun n => (n : Int))
    else (parseDigits (ch :: r)).map (fun n => (n : Int))

/-- Python `str.split('.')`. -/
def splitDot : List Char → List (List Char)
  | [] => [[]]
  | ch :: rest =>
    if ch = '.' then [] :: splitDot rest
    else
      match splitDot rest with
      | [] => [[ch]]
      | h :: t => (ch :: h) :: t

/-- Python `str.rstrip(c)` for a single strip character. -/
def rstripChar (l : List Char) (c : Char) : List Char :=
  (l.reverse.dropWhile (fun ch => ch = c)).reverse

/-- `'e' in amount.lower()` for an ASCII-relevant string: membership of
`'e'` or `'E'`. -/
def containsE (l : List Char) : Bool := l.any (fun ch => ch = 'e' || ch = 'E')

/-- `m` rendered with exactly `f` digits, left-padded with zeros (the
fractional block of a decimal string; callers ensure `m < 10 ^ f`). -/
def padDigits (f : Nat) (m : Nat) : List Char :=
  List.replicate (f - (natDigitChars m).length) '0' ++ natDigitChars m

/-! ### Python `decimal.Decimal` arithmetic (default context: 28 significant
digits, ROUND_HALF_EVEN) -/

/-- Round a finite decimal coefficient/exponent pair to the default
context's 28 significant digits with ROUND_HALF_EVEN (identity when the
coefficient already fits). -/
def roundSigHE (c : Nat) (e : Int) : Nat × Int :=
  let k := numDigits c
  if k ≤ 28 then (c, e)
  else
    let shift := k - 28
    let base := c / 10 ^ shift
    let rem := c % 10 ^ shift
    let half := 10 ^ shift / 2
    let r := if half < rem ∨ (rem = half ∧ base % 2 = 1) then base + 1 else base
    if r = 10 ^ 28 then (10 ^ 27, e + shift + 1) else (r, e + shift)

/-- `Decimal(a) / (10 ** d)` (equivalently `Decimal(a) / Decimal(10 ** d)`:
the int converts exactly with exponent 0) in the default context, as a
coefficient and exponent.  When the exact quotient needs at most 28
significant digits the result is exact, with the exponent clamped toward
the ideal exponent `0` (trailing zeros are added to the coefficient up to
the precision limit); otherwise the quotient is rounded to 28 significant
digits half-even.  Used both by the amount codec and by the account-metrics
scaling of `get_user_account_data`. -/
def divResult (a d : Nat) : Nat × Int :=
  let z := trailingZeros a
  let c := a / 10 ^ z
  let k := numDigits c
  if k ≤ 28 then
    if d ≤ z then
      let pad := min (z - d) (28 - k)
      (c * 10 ^ pad, ((z - d : Nat) : Int) - pad)
    else (c, (z : Int) - d)
  else roundSigHE c ((z : Int) - d)

/-- `str` of a finite positive `Decimal` with coefficient `c > 0` and
exponent `e` (the decimal specification's to-scientific-string): plain
notation when `e ≤ 0` and the adjusted exponent is at least `-6`,
scientific notation otherwise. -/
def decStrChars (c : Nat) (e : Int) : List Char :=
  let k := numDigits c
  let adj : Int := (k : Int) - 1 + e
  if e ≤ 0 ∧ -6 ≤ adj then
    if e = 0 then natDigitChars c
    else
      let f := (-e).toNat
      natDigitChars (c / 10 ^ f) ++ '.' :: padDigits f (c % 10 ^ f)
  else
    (if k ≤ 1 then natDigitChars c
     else natDigitChars (c / 10 ^ (k - 1)) ++ '.' :: padDigits (k - 1) (c % 10 ^ (k - 1)))
      ++ 'E' :: (if adj < 0 then '-' else '+') :: natDigitChars adj.natAbs

/-- The exact rational value of a finite decimal coefficient/exponent pair. -/
def decValQ (p : Nat × Int) : ℚ := (p.1 : ℚ) * (10 : ℚ) ^ p.2

/-- The exact rational value of `Decimal(n) / Decimal(10 ** d)` computed in
the default context: equal to `n / 10^d` exactly when `n` has at most 28
significant digits, and to the half-even 28-digit rounding of that quotient
otherwise. -/
def pyDivPow10 (n d : Nat) : ℚ := decValQ (divResult n d)

/-- `format_amount_from_decimals` (utils.py): atomic units to a
human-readable string.  `0` renders as `"0"`; otherwise
`str(Decimal(amount) / (10 ** decimals))`, and when the string contains a
decimal point, trailing `'0'`s and then a trailing `'.'` are stripped. -/
def format_amount_from_decimals (amount : Nat) (decimals : Nat) : String :=
  if amount = 0 then "0"
  else
    let p := divResult amount decimals
    let l := decStrChars p.1 p.2
    if '.' ∈ l then String.mk (rstripChar (rstripChar l '0') '.')
    else String.mk l

/-- Failure modes of the amount parser: `invalidFormat` models the
`ValueError` re-raised as "Invalid amount format: …"; `conversionFailure`
models `decimal.InvalidOperation` from the `Decimal` constructor, which is
*not* a `ValueError` and escapes the function's own handler (each public
operation still converts it to an error string at its boundary). -/
inductive AmountError where
  | invalidFormat (s : String)
  | conversionFailure
deriving DecidableEq

/-- The `Decimal(str)` constructor syntax (sign, coefficient, exponent):
optional sign, digits with an optional dot, optional exponent part.
(`Infinity`/`NaN` literals, underscores and surrounding whitespace are not
modelled; none is relevant to the claims.) -/
def parseDecimalChars (l : List Char) : Option (Bool × Nat × Int) :=
  let (neg, l1) :=
    match l with
    | '-' :: r => (true, r)
    | '+' :: r => (false, r)
    | r => (false, r)
  let intPart := l1.takeWhile isDigitChar
  let rest1 := l1.dropWhile isDigitChar
  let (fracPart, rest2) :=
    match rest1 with
    | '.' :: r => (r.takeWhile isDigitChar, r.dropWhile isDigitChar)
    | r => (([] : List Char), r)
  if intPart.length + fracPart.length = 0 then none
  else
    match rest2 with
    | [] => some (neg, digitsVal (intPart ++ fracPart), -(fracPart.length : Int))
    | ch :: r3 =>
      if ch = 'e' ∨ ch = 'E' then
        let (eneg, r4) :=
          match r3 with
          | '-' :: r => (true, r)
          | '+' :: r => (false, r)
          | r => (false, r)
        if r4 ≠ [] ∧ r4.all isDigitChar then
          some (neg, digitsVal (intPart ++ fracPart),
            (if eneg then -(digitsVal r4 : Int) else (digitsVal r4 : Int)) - fracPart.length)
        else none
      else none

/-- The exact rational value of a parsed `Decimal` literal. -/
def decimalValQ (p : Bool × Nat × Int) : ℚ :=
  (if p.1 then -1 else 1) * (p.2.1 : ℚ) * (10 : ℚ) ^ p.2.2

/-- `int(Decimal(parsed) * (10 ** d))`: the product coefficient is
context-rounded to 28 significant digits (exact here whenever only trailing
zeros are trimmed), then truncated toward zero. -/
def decimalMulPow10Int (neg : Bool) (c : Nat) (e : Int) (d : Nat) : Int :=
  let p := roundSigHE c (e + d)
  let n : Nat := if 0 ≤ p.2 then p.1 * 10 ^ p.2.toNat else p.1 / 10 ^ (-p.2).toNat
  if neg then -(n : Int) else (n : Int)

/-- `format_amount_with_decimals` (utils.py): human-readable amount string
to atomic units.  `"max"` is the uint256-max sentinel; strings containing
`e`/`E` go through the `Decimal` constructor and context multiplication;
otherwise the string is split on `'.'`, the fractional part is truncated or
right-padded with zeros to `decimals` digits, and both parts go through
Python `int` (so signed numerals are accepted). -/
def format_amount_with_decimals (amount : String) (decimals : Nat) :
    Except AmountError Int :=
  if amount = "max" then .ok (2 ^ 256 - 1)
  else
    let l := amount.data
    if containsE l then
      match parseDecimalChars l with
      | none => .error .conversionFailure
      | some (neg, c, e) => .ok (decimalMulPow10Int neg c e decimals)
    else
      match splitDot l with
      | [w] =>
        match parsePyInt w with
        | none => .error (.invalidFormat amount)
        | some n => .ok (n * (10 : Int) ^ decimals)
      | [w, f0] =>
        let f := if decimals < f0.length then f0.take decimals
                 else f0 ++ List.replicate (decimals - f0.length) '0'
        match parsePyInt w, parsePyInt f with
        | some wn, some fn => .ok (wn * (10 : Int) ^ decimals + fn)
        | _, _ => .error (.invalidFormat amount)
      | _ => .error (.invalidFormat amount)

/-- The atomic amount `a` is exactly representable in the default decimal
context: its significant digits (after stripping trailing zeros) fit into
the 28-digit precision, so `Decimal(a) / 10**d` is exact. -/
def exactlyRepresentable (a : Nat) : Prop :=
  numDigits (a / 10 ^ trailingZeros a) ≤ 28

/-- `str(Decimal(a) / 10**d)` is rendered in plain (non-scientific)
notation: the result exponent is at most 0 and the adjusted exponent is at
least -6 (or the amount is 0, rendered as "0"). -/
def plainNotation (a d : Nat) : Prop :=
  a = 0 ∨ ((divResult a d).2 ≤ 0 ∧
    -6 ≤ (numDigits (divResult a d).1 : Int) - 1 + (divResult a d).2)

/-! ### Account metrics (`get_user_account_data`) -/

/-- A Python `Decimal` value as used for account metrics: either a finite
value, held as the exact rational value of the (possibly context-rounded)
`Decimal` it models, or `Decimal('Infinity')`. -/
inductive PyDecimal where
  | fin (q : ℚ)
  | infinity
deriving DecidableEq

/-- `decimal < float` comparison (Python compares a `Decimal` and a `float`
by exact value; `Infinity` is below nothing). -/
def pyLt (hf : PyDecimal) (x : ℚ) : Bool :=
  match hf with
  | .infinity => false
  | .fin q => decide (q < x)

/-- `decimal >= number` comparison (`Infinity` is at least everything). -/
def pyGe (hf : PyDecimal) (x : ℚ) : Bool :=
  match hf with
  | .infinity => true
  | .fin q => decide (x ≤ q)

/-- The six raw uint256 words returned by the pool's `getUserAccountData`,
in ABI order. -/
structure RawAccountData where
  totalCollateralBase : Nat
  totalDebtBase : Nat
  availableBorrowsBase : Nat
  currentLiquidationThreshold : Nat
  ltv : Nat
  healthFactor : Nat
deriving DecidableEq

/-- The scaled account metrics dictionary built by `get_user_account_data`. -/
structure AccountData where
  totalCollateralBase : ℚ
  totalDebtBase : ℚ
  availableBorrowsBase : ℚ
  currentLiquidationThreshold : ℚ
  ltv : ℚ
  healthFactor : PyDecimal
deriving DecidableEq

/-- `get_user_account_data` (utils.py): scales the six raw words with
default-context `Decimal` division (collateral/debt/available by `10^18`,
threshold/ltv by `10^4` — each quotient rounded to 28 significant digits
half-even when the word has more) and maps the raw health factor to
`Decimal(raw) / Decimal(10^18)` when `raw > 0` and to `Decimal('Infinity')`
otherwise (the raw word is a uint256, so "otherwise" is exactly `raw = 0`). -/
def get_user_account_data (raw : RawAccountData) : AccountData :=
  { totalCollateralBase := pyDivPow10 raw.totalCollateralBase 18
    totalDebtBase := pyDivPow10 raw.totalDebtBase 18
    availableBorrowsBase := pyDivPow10 raw.availableBorrowsBase 18
    currentLiquidationThreshold := pyDivPow10 raw.currentLiquidationThreshold 4
    ltv := pyDivPow10 raw.ltv 4
    healthFactor :=
      if 0 < raw.healthFactor then .fin (pyDivPow10 raw.healthFactor 18)
      else .infinity }

/-- `get_health_factor` (utils.py): the `healthFactor` entry of
`get_user_account_data`. -/
def get_health_factor (raw : RawAccountData) : PyDecimal :=
  (get_user_account_data raw).healthFactor

/-! ### Risk classification and number formatting -/

/-- The exact rational value of the Python float literal `1.1`
(`0x1.199999999999ap+0`): the risk-band comparisons in the source compare a
`Decimal` health factor against the *float* `1.1`, i.e. against this value,
which is strictly greater than 11/10. -/
def float11 : ℚ := 4953959590107546 / 4503599627370496

/-- The qualitative risk bands of the specification. -/
inductive RiskBand where
  | noDebt
  | healthy
  | caution
  | danger
deriving DecidableEq

/-- The health-factor classification cascade of
`get_portfolio_details_markdown` (utils.py): `Infinity` → no borrows;
`>= 2` → Healthy; `>= 1.1` (the float) → Caution; else Danger. -/
def riskBand (hf : PyDecimal) : RiskBand :=
  match hf with
  | .infinity => .noDebt
  | .fin q => if 2 ≤ q then .healthy else if float11 ≤ q then .caution else .danger

/-- Floor of a rational (denominators are positive, so `Int.fdiv` is the
mathematical floor). -/
def ratFloor (q : ℚ) : ℤ := Int.fdiv q.num (q.den : ℤ)

/-- Round a rational to the nearest integer, ties to even (the
ROUND_HALF_EVEN used by `Decimal.__format__`). -/
def rhe (q : ℚ) : ℤ :=
  let f := ratFloor q
  let r := q - (f : ℚ)
  if r < 1 / 2 then f
  else if 1 / 2 < r then f + 1
  else if f % 2 = 0 then f else f + 1

/-- Python `format(decimal, '.<prec>f')` for a finite value: fixed-point
with `prec` fractional digits, ROUND_HALF_EVEN. -/
def formatFixed (prec : Nat) (q : ℚ) : String :=
  let n := rhe (q * 10 ^ prec)
  let s := n.natAbs
  (if n < 0 then "-" else "")
    ++ String.mk (natDigitChars (s / 10 ^ prec)) ++ "."
    ++ String.mk (padDigits prec (s % 10 ^ prec))

/-- Python `f"{health:.2f}"` on a `Decimal` health factor:
`Decimal('Infinity')` formats as `"Infinity"`. -/
def format2fHF (hf : PyDecimal) : String :=
  match hf with
  | .infinity => "Infinity"
  | .fin q => formatFixed 2 q

/-- The low-health warning appended by `borrow`
(aave_action_provider.py): produced when
`new_health < 1.1 and new_health != Decimal("Infinity")`, embedding the
health factor to two decimal places. -/
def borrowWarningText (new_health : PyDecimal) : String :=
  if pyLt new_health float11 ∧ new_health ≠ .infinity then
    "\n⚠️ WARNING: Your health factor is now " ++ format2fHF new_health
      ++ ", which is dangerously low. Consider repaying some debt or adding more collateral to avoid liquidation."
  else ""

/-! ### Network and asset tables (constants.py) -/

/-- `SUPPORTED_NETWORKS`. -/
def SUPPORTED_NETWORKS : List String := ["base-mainnet", "base-sepolia"]

/-- `POOL_ADDRESSES` as a partial lookup (`none` models `KeyError`). -/
def POOL_ADDRESSES (network : String) : Option String :=
  if network = "base-mainnet" then some "0xa238dd80c259a72e81d7e4664a9801593f98d1c5"
  else if network = "base-sepolia" then some "0x6Ae43d3271ff6888e7Fc43Fd7321a503ff738951"
  else none

/-- `ASSET_ADDRESSES` as a partial lookup (`none` models `KeyError`, which
`_get_asset_address` converts to `ValueError("Asset … not supported on …")`). -/
def ASSET_ADDRESSES (network : String) (asset : String) : Option String :=
  if network = "base-mainnet" then
    if asset = "weth" then some "0x4200000000000000000000000000000000000006"
    else if asset = "usdc" then some "0x833589fCD6eDb6E08f4c7C32D4f71b54bdA02913"
    else if asset = "cbeth" then some "0x2Ae3F1Ec7F1F5012CFEab0185bfc7aa3cf0DEc22"
    else if asset = "wsteth" then some "0xc1CBa3fCea344f92D9239c08C0568f6F2F0ee452"
    else none
  else if network = "base-sepolia" then
    if asset = "weth" then some "0x4200000000000000000000000000000000000006"
    else if asset = "usdc" then some "0x036CbD53842c5426634e7929541eC2318f3dCF7e"
    else none
  else none

/-! ### The transaction orchestrator (aave_action_provider.py)

The wallet provider and chain are modelled as an environment of
per-call-site outcomes: each external read/write either succeeds with a
value or raises with a `str(exception)` payload.  Each operation returns
the composed result string together with the list of transaction
submissions it performed (approval / protocol call), so "no transaction was
sent" is the trace being empty. -/

/-- A transaction submission performed by an operation. -/
inductive Tx where
  | approval
  | protocolCall
deriving DecidableEq

/-- Outcomes of the external calls an operation can make, one field per
call site.  `execOutcome` bundles `send_transaction` plus
`wait_for_transaction_receipt` of the protocol call: `ok (txHash, status)`
when both returned, `error` when either raised. -/
structure Env where
  network : String
  decimals : Except String Nat
  symbol : Except String String
  balance : Except String Nat
  accountData1 : Except String RawAccountData
  accountData2 : Except String RawAccountData
  approveTx : Except String String
  execOutcome : Except String (String × Nat)
  afterData : Except String RawAccountData

/-- `str(KeyError(k))`: the key in single quotes. -/
def keyErrorText (k : String) : String :=
  String.mk (Char.ofNat 39 :: (k.data ++ [Char.ofNat 39]))

/-- `str` of the `decimal.InvalidOperation` raised by `Decimal()` on a
malformed literal (CPython renders the `ConversionSyntax` condition class). -/
def conversionSyntaxText : String :=
  "[<class " ++ String.mk [Char.ofNat 39] ++ "decimal.ConversionSyntax"
    ++ String.mk [Char.ofNat 39] ++ ">]"

/-- `str(e)` for the exceptions of `format_amount_with_decimals` as seen by
the operation-boundary handler. -/
def amountErrorText : AmountError → String
  | .invalidFormat s => "Invalid amount format: " ++ s
  | .conversionFailure => conversionSyntaxText

/-- The try/except-Exception fallback used for "after" reads in supply and
repay: re-fetch the health factor, fall back to the given previous value on
any failure. -/
def healthOr (r : Except String RawAccountData) (fallback : PyDecimal) : PyDecimal :=
  match r with
  | .ok raw => get_health_factor raw
  | .error _ => fallback

/-- The try/except-Exception fallback to `Decimal("Infinity")` used for the
"before" reads of supply/repay and the "after" read of withdraw. -/
def healthOrInfinity (r : Except String RawAccountData) : PyDecimal :=
  healthOr r .infinity

/-- The "after" re-fetch of `borrow`: on failure it falls back to
`Decimal("0")` ("# Default to show warning" in the source), not to
infinity. -/
def borrowNewHealth (r : Except String RawAccountData) : PyDecimal :=
  match r with
  | .ok raw => (get_user_account_data raw).healthFactor
  | .error _ => .fin 0

/-- Argument object of `supply` (pydantic-validated fields that influence
the result text). -/
structure SupplyArgs where
  asset_id : String
  amount : String

/-- Argument object of `withdraw`. -/
structure WithdrawArgs where
  asset_id : String
  amount : String

/-- Argument object of `borrow`. -/
structure BorrowArgs where
  asset_id : String
  amount : String
  interest_rate_mode : Nat

/-- Argument object of `repay`. -/
structure RepayArgs where
  asset_id : String
  amount : String
  interest_rate_mode : Nat

/-- The success-message amount display of `withdraw`: `"max"` is shown as
`"all available"`, never as the raw sentinel value. -/
def withdrawAmountDisplay (amount : String) : String :=
  if amount ≠ "max" then amount else "all available"

/-- The success-message amount display of `repay`: `"max"` is shown as
`"all outstanding"`. -/
def repayAmountDisplay (amount : String) : String :=
  if amount ≠ "max" then amount else "all outstanding"

/-- `AaveActionProvider.supply`: resolve addresses, quantify, check wallet
balance, read the before health factor (failure tolerated as Infinity),
approve, execute, read the after health factor (failure tolerated as the
before value), compose the message.  The execute receipt's status is never
inspected: supply reports success whenever `send_transaction` and
`wait_for_transaction_receipt` return, whatever the receipt status. -/
def supply (env : Env) (args : SupplyArgs) : String × List Tx :=
  match POOL_ADDRESSES env.network with
  | none => ("Error supplying to Aave: " ++ keyErrorText env.network, [])
  | some _pool =>
  match ASSET_ADDRESSES env.network args.asset_id with
  | none => ("Error supplying to Aave: Asset " ++ args.asset_id ++ " not supported on "
      ++ env.network, [])
  | some _asset =>
  match env.decimals with
  | .error e => ("Error supplying to Aave: " ++ e, [])
  | .ok decimals =>
  match format_amount_with_decimals args.amount decimals with
  | .error err => ("Error supplying to Aave: " ++ amountErrorText err, [])
  | .ok amount_atomic =>
  match env.balance with
  | .error e => ("Error supplying to Aave: " ++ e, [])
  | .ok wallet_balance =>
  if (wallet_balance : Int) < amount_atomic then
    ("Error: Insufficient balance. You have "
      ++ format_amount_from_decimals wallet_balance decimals ++ " " ++ args.asset_id
      ++ ", but trying to supply " ++ args.amount, [])
  else
  let current_health := healthOrInfinity env.accountData1
  match env.approveTx with
  | .error e => ("Error approving token: " ++ e, [.approval])
  | .ok _approve_tx_hash =>
  match env.execOutcome with
  | .error e => ("Error executing supply transaction: " ++ e, [.approval, .protocolCall])
  | .ok (tx_hash, _status) =>
  let new_health := healthOr env.afterData current_health
  match env.symbol with
  | .error e => ("Error supplying to Aave: " ++ e, [.approval, .protocolCall])
  | .ok token_symbol =>
  let health_message :=
    if current_health = .infinity ∧ new_health = .infinity then ""
    else "\nHealth factor changed from " ++ format2fHF current_health ++ " to "
      ++ format2fHF new_health
  ("Successfully supplied " ++ args.amount ++ " " ++ token_symbol
    ++ " to Aave.\nTransaction hash: " ++ tx_hash ++ health_message,
    [.approval, .protocolCall])

/-- `AaveActionProvider.withdraw`: resolve, quantify, then inside one
try-block read the health factor and the account data and reject `"max"`
while debt is outstanding; execute (no approval), treat a non-success
receipt status as failure, read the after health factor (failure tolerated
as Infinity), compose the message. -/
def withdraw (env : Env) (args : WithdrawArgs) : String × List Tx :=
  match POOL_ADDRESSES env.network with
  | none => ("Error withdrawing from Aave: " ++ keyErrorText env.network, [])
  | some _pool =>
  match ASSET_ADDRESSES env.network args.asset_id with
  | none => ("Error withdrawing from Aave: Asset " ++ args.asset_id ++ " not supported on "
      ++ env.network, [])
  | some _asset =>
  match env.decimals with
  | .error e => ("Error withdrawing from Aave: " ++ e, [])
  | .ok decimals =>
  match format_amount_with_decimals args.amount decimals with
  | .error err => ("Error withdrawing from Aave: " ++ amountErrorText err, [])
  | .ok _amount_atomic =>
  match env.accountData1 with
  | .error e => ("Error checking account data: " ++ e, [])
  | .ok raw1 =>
  let current_health := get_health_factor raw1
  match env.accountData2 with
  | .error e => ("Error checking account data: " ++ e, [])
  | .ok raw2 =>
  let account_data := get_user_account_data raw2
  if 0 < account_data.totalDebtBase ∧ args.amount = "max" then
    ("Error: You have active borrows. You cannot withdraw all your collateral. Specify an exact amount instead.", [])
  else
  match env.execOutcome with
  | .error e => ("Error executing withdraw transaction: " ++ e, [.protocolCall])
  | .ok (tx_hash, status) =>
  if status ≠ 1 then
    ("Error: Transaction failed. Your health factor may be at risk if you withdraw this amount.", [.protocolCall])
  else
  let new_health := healthOrInfinity env.afterData
  match env.symbol with
  | .error e => ("Error withdrawing from Aave: " ++ e, [.protocolCall])
  | .ok token_symbol =>
  let amount_display := withdrawAmountDisplay args.amount
  let health_message :=
    if current_health = .infinity ∧ new_health = .infinity then ""
    else "\nHealth factor changed from " ++ format2fHF current_health ++ " to "
      ++ format2fHF new_health
  ("Successfully withdrew " ++ amount_display ++ " " ++ token_symbol
    ++ " from Aave.\nTransaction hash: " ++ tx_hash ++ health_message,
    [.protocolCall])

/-- `AaveActionProvider.borrow`: resolve, quantify, then inside one
try-block read account data, require nonzero collateral, fetch the symbol,
parse the requested amount with the `Decimal` constructor (which raises for
`"max"`), apply the rough ETH-equivalence estimate and compare against
`availableBorrowsBase`; execute (no approval), treat a non-success receipt
as failure, re-fetch the health factor falling back to `Decimal("0")`,
compose the message with a danger warning when the new health factor is
below the float `1.1`. -/
def borrow (env : Env) (args : BorrowArgs) : String × List Tx :=
  match POOL_ADDRESSES env.network with
  | none => ("Error borrowing from Aave: " ++ keyErrorText env.network, [])
  | some _pool =>
  match ASSET_ADDRESSES env.network args.asset_id with
  | none => ("Error borrowing from Aave: Asset " ++ args.asset_id ++ " not supported on "
      ++ env.network, [])
  | some _asset =>
  match env.decimals with
  | .error e => ("Error borrowing from Aave: " ++ e, [])
  | .ok decimals =>
  match format_amount_with_decimals args.amount decimals with
  | .error err => ("Error borrowing from Aave: " ++ amountErrorText err, [])
  | .ok _amount_atomic =>
  match env.accountData1 with
  | .error e => ("Error checking account data: " ++ e, [])
  | .ok raw =>
  let account_data := get_user_account_data raw
  if account_data.totalCollateralBase = 0 then
    ("Error: You have no collateral supplied. Supply assets as collateral before borrowing.", [])
  else
  match env.symbol with
  | .error e => ("Error checking account data: " ++ e, [])
  | .ok token_symbol =>
  match parseDecimalChars args.amount.data with
  | none => ("Error checking account data: " ++ conversionSyntaxText, [])
  | some p =>
  let amount_decimal := decimalValQ p
  -- `amount_decimal / 3000` below models the `Decimal` division as exact
  -- rational division; Python rounds a non-terminating quotient to the
  -- 28-digit context.  No settled claim engages that boundary: borrow with
  -- "max" fails before this point, and the other claims never reach the
  -- USDC branch.
  let estimated_eth_value :=
    if token_symbol = "WETH" ∨ token_symbol = "WSTETH" ∨ token_symbol = "CBETH" then
      amount_decimal
    else if token_symbol = "USDC" then amount_decimal / 3000
    else amount_decimal
  if account_data.availableBorrowsBase < estimated_eth_value then
    ("Error: Insufficient borrowing capacity. You can borrow up to "
      ++ formatFixed 4 account_data.availableBorrowsBase ++ " ETH worth of assets.", [])
  else
  let current_health := account_data.healthFactor
  match env.execOutcome with
  | .error e => ("Error executing borrow transaction: " ++ e, [.protocolCall])
  | .ok (tx_hash, status) =>
  if status ≠ 1 then
    ("Error: Transaction failed. The borrow may exceed your available borrowing capacity.", [.protocolCall])
  else
  let new_health := borrowNewHealth env.afterData
  let interest_mode := if args.interest_rate_mode = 2 then "variable" else "stable"
  ("Successfully borrowed " ++ args.amount ++ " " ++ token_symbol ++ " from Aave with "
    ++ interest_mode ++ " interest rate.\nTransaction hash: " ++ tx_hash
    ++ "\nHealth factor changed from " ++ format2fHF current_health ++ " to "
    ++ format2fHF new_health ++ borrowWarningText new_health,
    [.protocolCall])

/-- `AaveActionProvider.repay`: resolve, quantify, check the wallet balance
unless repaying `"max"`, read the before health factor (failure tolerated
as Infinity), approve, execute, treat a non-success receipt as failure,
read the after health factor (failure tolerated as the before value),
compose the message. -/
def repay (env : Env) (args : RepayArgs) : String × List Tx :=
  match POOL_ADDRESSES env.network with
  | none => ("Error repaying to Aave: " ++ keyErrorText env.network, [])
  | some _pool =>
  match ASSET_ADDRESSES env.network args.asset_id with
  | none => ("Error repaying to Aave: Asset " ++ args.asset_id ++ " not supported on "
      ++ env.network, [])
  | some _asset =>
  match env.decimals with
  | .error e => ("Error repaying to Aave: " ++ e, [])
  | .ok decimals =>
  match format_amount_with_decimals args.amount decimals with
  | .error err => ("Error repaying to Aave: " ++ amountErrorText err, [])
  | .ok amount_atomic =>
  let balCheck : Option (String × List Tx) :=
    if args.amount ≠ "max" then
      match env.balance with
      | .error e => some ("Error repaying to Aave: " ++ e, [])
      | .ok wallet_balance =>
        if (wallet_balance : Int) < amount_atomic then
          some ("Error: Insufficient balance. You have "
            ++ format_amount_from_decimals wallet_balance decimals ++ " " ++ args.asset_id
            ++ ", but trying to repay " ++ args.amount, [])
        else none
    else none
  match balCheck with
  | some r => r
  | none =>
  let current_health := healthOrInfinity env.accountData1
  match env.approveTx with
  | .error e => ("Error approving token: " ++ e, [.approval])
  | .ok _approve_tx_hash =>
  match env.execOutcome with
  | .error e => ("Error executing repay transaction: " ++ e, [.approval, .protocolCall])
  | .ok (tx_hash, status) =>
  if status ≠ 1 then
    ("Error: Transaction failed. You may not have borrowed this asset with the specified interest rate mode.", [.approval, .protocolCall])
  else
  let new_health := healthOr env.afterData current_health
  match env.symbol with
  | .error e => ("Error repaying to Aave: " ++ e, [.approval, .protocolCall])
  | .ok token_symbol =>
  let amount_display := repayAmountDisplay args.amount
  let interest_mode := if args.interest_rate_mode = 2 then "variable" else "stable"
  let health_message :=
    if new_health = .infinity then "\nYou have repaid all your debt and have no active borrows."
    else "\nHealth factor changed from " ++ format2fHF current_health ++ " to "
      ++ format2fHF new_health
  ("Successfully repaid " ++ amount_display ++ " " ++ token_symbol ++ " to Aave with "
    ++ interest_mode ++ " interest rate.\nTransaction hash: " ++ tx_hash
    ++ health_message, [.approval, .protocolCall])

/-! ### Result-shape predicates and concrete environments -/

/-- The result string is an error report: every failure path of the
provider produces a message beginning with `"Error"`. -/
def startsWithError (s : String) : Prop := ∃ t, s = "Error" ++ t

/-- The result string is a success report (messages beginning with
`"Successfully"`). -/
def startsWithSuccess (s : String) : Prop := ∃ t, s = "Successfully" ++ t

/-- An account snapshot with 2 ETH collateral, no debt, raw health factor 0
(reported as infinity). -/
def okRaw : RawAccountData :=
  ⟨2000000000000000000, 0, 1000000000000000000, 8000, 7500, 0⟩

/-- An account snapshot with 2 ETH collateral, 1 ETH debt, 0.5 ETH
available to borrow, raw health factor 1.5e18. -/
def debtRaw : RawAccountData :=
  ⟨2000000000000000000, 1000000000000000000, 500000000000000000, 8000, 7500,
    1500000000000000000⟩

/-- A fully healthy environment: every external call succeeds, the execute
receipt has status 1. -/
def baseEnv : Env :=
  { network := "base-mainnet"
    decimals := .ok 18
    symbol := .ok "WETH"
    balance := .ok 2000000000000000000
    accountData1 := .ok okRaw
    accountData2 := .ok okRaw
    approveTx := .ok "0xapprovehash"
    execOutcome := .ok ("0xtxhash", 1)
    afterData := .ok okRaw }

/-- `baseEnv` with a reverted execute receipt (status 0). -/
def envC1 : Env := { baseEnv with execOutcome := .ok ("0xtxhash", 0) }

/-- `baseEnv` with outstanding debt visible in the pre-check account read. -/
def envC2 : Env := { baseEnv with accountData2 := .ok debtRaw }

/-- `baseEnv` holding 50 USDC (6 decimals) in the wallet. -/
def envC3 : Env := { baseEnv with decimals := .ok 6, balance := .ok 50000000 }

/-- `baseEnv` with debt in the before-read and a failing after-read. -/
def envC4 : Env :=
  { baseEnv with accountData1 := .ok debtRaw, afterData := .error "rpc down" }

/-! ## Theorems

### Digit-level lemmas -/

theorem natDigitsAux_eq (fuel n : Nat) (h : n ≤ fuel) :
    natDigitsAux fuel n = Nat.digits 10 n := by
  induction fuel generalizing n with
  | zero =>
    have : n = 0 := Nat.le_zero.mp h
    simp [natDigitsAux, this]
  | succ fuel ih =>
    by_cases hn : n = 0
    · simp [natDigitsAux, hn]
    · have hlt : n / 10 < n := Nat.div_lt_self (Nat.pos_of_ne_zero hn) (by norm_num)
      rw [natDigitsAux, if_neg hn, ih (n / 10) (by omega),
        Nat.digits_def' (by norm_num : 1 < 10) (Nat.pos_of_ne_zero hn)]

theorem natDigitsLE_eq (n : Nat) : natDigitsLE n = Nat.digits 10 n :=
  natDigitsAux_eq n n le_rfl

theorem charVal_digitChar {d : Nat} (h : d < 10) : charVal (digitChar d) = d := by
  interval_cases d <;> rfl

theorem isDigitChar_digitChar {d : Nat} (h : d < 10) : isDigitChar (digitChar d) = true := by
  interval_cases d <;> rfl

theorem mem_natDigitChars {ch : Char} {n : Nat} (h : ch ∈ natDigitChars n) :
    ∃ d, d < 10 ∧ ch = digitChar d := by
  unfold natDigitChars at h
  by_cases hn : n = 0
  · rw [if_pos hn] at h
    simp at h
    exact ⟨0, by norm_num, h⟩
  · rw [if_neg hn] at h
    obtain ⟨d, hd, rfl⟩ := List.mem_map.mp h
    refine ⟨d, ?_, rfl⟩
    rw [natDigitsLE_eq] at hd
    exact Nat.digits_lt_base (by norm_num) (List.mem_reverse.mp hd)

theorem isDigitChar_of_mem_natDigitChars {ch : Char} {n : Nat}
    (h : ch ∈ natDigitChars n) : isDigitChar ch = true := by
  obtain ⟨d, hd, rfl⟩ := mem_natDigitChars h
  exact isDigitChar_digitChar hd

theorem natDigitChars_ne_nil (n : Nat) : natDigitChars n ≠ [] := by
  unfold natDigitChars
  by_cases hn : n = 0
  · simp [hn]
  · rw [if_neg hn]
    simp only [ne_eq, List.map_eq_nil_iff, List.reverse_eq_nil_iff, natDigitsLE_eq]
    exact Nat.digits_ne_nil_iff_ne_zero.mpr hn

theorem digitsVal_from (L : List Char) (v : Nat) :
    L.foldl (fun a ch => a * 10 + charVal ch) v = v * 10 ^ L.length + digitsVal L := by
  induction L generalizing v with
  | nil => simp [digitsVal]
  | cons c T ih =>
    show T.foldl _ (v * 10 + charVal c) = _
    rw [ih (v * 10 + charVal c)]
    have : digitsVal (c :: T) = charVal c * 10 ^ T.length + digitsVal T := by
      show T.foldl _ (0 * 10 + charVal c) = _
      rw [ih (0 * 10 + charVal c)]
      ring
    rw [this]
    simp [List.length_cons, pow_succ]
    ring

theorem digitsVal_append (A B : List Char) :
    digitsVal (A ++ B) = digitsVal A * 10 ^ B.length + digitsVal B := by
  unfold digitsVal
  rw [List.foldl_append]
  rw [show A.foldl (fun a ch => a * 10 + charVal ch) 0 = digitsVal A from rfl]
  exact digitsVal_from B (digitsVal A)

theorem digitsVal_replicate_zero (z : Nat) : digitsVal (List.replicate z '0') = 0 := by
  induction z with
  | zero => rfl
  | succ z ih =>
    have : ('0' :: List.replicate z '0') = List.replicate (z + 1) '0' := rfl
    rw [← this] at *
    show (List.replicate z '0').foldl _ (0 * 10 + charVal '0') = 0
    have h0 : (0 : Nat) * 10 + charVal '0' = 0 := rfl
    rw [h0]
    exact ih

theorem digitsVal_natDigitChars (n : Nat) : digitsVal (natDigitChars n) = n := by
  unfold natDigitChars
  by_cases hn : n = 0
  · simp [hn]; rfl
  · rw [if_neg hn, natDigitsLE_eq]
    have key : ∀ (D : List Nat) (acc : Nat), (∀ x ∈ D, x < 10) →
        List.foldl (fun a ch => a * 10 + charVal ch) acc (D.reverse.map digitChar) =
          acc * 10 ^ D.length + Nat.ofDigits 10 D := by
      intro D
      induction D with
      | nil => intro acc _; simp [Nat.ofDigits]
      | cons d T ih =>
        intro acc hlt
        rw [List.reverse_cons, List.map_append, List.foldl_append]
        rw [ih acc (fun x hx => hlt x (List.mem_cons_of_mem d hx))]
        have hd : d < 10 := hlt d (List.mem_cons_self d T)
        show (acc * 10 ^ T.length + Nat.ofDigits 10 T) * 10 + charVal (digitChar d) = _
        rw [charVal_digitChar hd, Nat.ofDigits_cons]
        simp [List.length_cons, pow_succ]
        ring
    show digitsVal ((Nat.digits 10 n).reverse.map digitChar) = n
    unfold digitsVal
    rw [key (Nat.digits 10 n) 0 (fun x hx => Nat.digits_lt_base (by norm_num) hx)]
    simp [Nat.ofDigits_digits]

theorem parseDigits_natDigitChars (n : Nat) : parseDigits (natDigitChars n) = some n := by
  unfold parseDigits
  rw [if_pos]
  · rw [digitsVal_natDigitChars]
  · refine ⟨natDigitChars_ne_nil n, ?_⟩
    rw [List.all_eq_true]
    intro ch hch
    exact isDigitChar_of_mem_natDigitChars hch

theorem digitChar_ne_dash {d : Nat} (h : d < 10) : digitChar d ≠ '-' := by
  interval_cases d <;> decide

theorem digitChar_ne_plus {d : Nat} (h : d < 10) : digitChar d ≠ '+' := by
  interval_cases d <;> decide

theorem digitChar_ne_dot {d : Nat} (h : d < 10) : digitChar d ≠ '.' := by
  interval_cases d <;> decide

theorem digitChar_ne_e {d : Nat} (h : d < 10) : digitChar d ≠ 'e' ∧ digitChar d ≠ 'E' := by
  interval_cases d <;> exact ⟨by decide, by decide⟩

theorem parsePyInt_natDigitChars (n : Nat) : parsePyInt (natDigitChars n) = some (n : Int) := by
  obtain ⟨ch, r, hcons⟩ : ∃ ch r, natDigitChars n = ch :: r := by
    cases h : natDigitChars n with
    | nil => exact absurd h (natDigitChars_ne_nil n)
    | cons ch r => exact ⟨ch, r, rfl⟩
  obtain ⟨d, hd, hch⟩ := mem_natDigitChars (hcons ▸ List.mem_cons_self (l := r) (a := ch))
  rw [hcons, parsePyInt, if_neg (hch ▸ digitChar_ne_dash hd),
    if_neg (hch ▸ digitChar_ne_plus hd), ← hcons, parseDigits_natDigitChars]
  rfl

theorem length_natDigitChars (n : Nat) (hn : n ≠ 0) :
    (natDigitChars n).length = numDigits n := by
  rw [natDigitChars, if_neg hn, List.length_map, List.length_reverse, numDigits]

theorem numDigits_lt_pow (n : Nat) : n < 10 ^ numDigits n := by
  rw [numDigits, natDigitsLE_eq]
  exact Nat.lt_base_pow_length_digits (by norm_num)

theorem pow_numDigits_le (n : Nat) (hn : n ≠ 0) : 10 ^ numDigits n ≤ 10 * n := by
  rw [numDigits, natDigitsLE_eq]
  exact Nat.base_pow_length_digits_le 10 n (by norm_num) hn

theorem numDigits_le_iff {n f : Nat} : numDigits n ≤ f ↔ n < 10 ^ f := by
  constructor
  · intro h
    exact lt_of_lt_of_le (numDigits_lt_pow n) (Nat.pow_le_pow_right (by norm_num) h)
  · intro h
    by_contra hgt
    push_neg at hgt
    have hn : n ≠ 0 := by
      intro h0
      rw [h0] at hgt
      simp [numDigits, natDigitsLE_eq] at hgt
    have h1 : 10 ^ (f + 1) ≤ 10 ^ numDigits n := Nat.pow_le_pow_right (by norm_num) hgt
    have h2 := pow_numDigits_le n hn
    have : 10 ^ (f + 1) ≤ 10 * n := le_trans h1 h2
    rw [pow_succ] at this
    omega

theorem numDigits_pos {n : Nat} (hn : n ≠ 0) : 1 ≤ numDigits n := by
  by_contra h
  push_neg at h
  have : numDigits n ≤ 0 := by omega
  have := numDigits_le_iff.mp this
  simp at this
  exact hn this

theorem tzAux_spec (fuel n : Nat) (h : n ≤ fuel) (hn : n ≠ 0) :
    n / 10 ^ tzAux fuel n * 10 ^ tzAux fuel n = n ∧ n / 10 ^ tzAux fuel n % 10 ≠ 0 := by
  induction fuel generalizing n with
  | zero => omega
  | succ fuel ih =>
    rw [tzAux]
    by_cases hc : n ≠ 0 ∧ n % 10 = 0
    · rw [if_pos hc]
      have h10 : 10 ∣ n := Nat.dvd_of_mod_eq_zero hc.2
      have hge : 10 ≤ n := Nat.le_of_dvd (Nat.pos_of_ne_zero hn) h10
      have hq : n / 10 ≠ 0 := by
        intro h0
        have := Nat.div_mul_cancel h10
        omega
      have hle : n / 10 ≤ fuel := by
        have := Nat.div_lt_self (Nat.pos_of_ne_zero hn) (by norm_num : 1 < 10)
        omega
      obtain ⟨ih1, ih2⟩ := ih (n / 10) hle hq
      have hdd : n / 10 ^ (tzAux fuel (n / 10) + 1) = n / 10 / 10 ^ tzAux fuel (n / 10) := by
        rw [Nat.div_div_eq_div_mul, pow_succ]
        ring_nf
      constructor
      · rw [hdd, pow_succ, ← mul_assoc, ih1, Nat.div_mul_cancel h10]
      · rw [hdd]
        exact ih2
    · rw [if_neg hc]
      simp only [pow_zero, Nat.div_one, mul_one]
      refine ⟨by simp, ?_⟩
      push_neg at hc
      exact hc hn

theorem trailingZeros_spec (n : Nat) (hn : n ≠ 0) :
    n / 10 ^ trailingZeros n * 10 ^ trailingZeros n = n ∧
      n / 10 ^ trailingZeros n % 10 ≠ 0 :=
  tzAux_spec n n le_rfl hn

theorem padDigits_length {f m : Nat} (h : m < 10 ^ f) (hf : 1 ≤ f) :
    (padDigits f m).length = f := by
  have hle : (natDigitChars m).length ≤ f := by
    by_cases hm : m = 0
    · simp [hm, natDigitChars]
      omega
    · rw [length_natDigitChars m hm]
      exact numDigits_le_iff.mpr h
  rw [padDigits, List.length_append, List.length_replicate]
  omega

theorem digitsVal_padDigits (f m : Nat) : digitsVal (padDigits f m) = m := by
  rw [padDigits, digitsVal_append, digitsVal_replicate_zero, digitsVal_natDigitChars]
  ring

theorem isDigitChar_of_mem_padDigits {ch : Char} {f m : Nat}
    (h : ch ∈ padDigits f m) : isDigitChar ch = true := by
  rw [padDigits, List.mem_append] at h
  rcases h with h | h
  · rw [List.eq_of_mem_replicate h]
    rfl
  · exact isDigitChar_of_mem_natDigitChars h

theorem parseDigits_all_digits (l : List Char) (hne : l ≠ [])
    (hd : ∀ ch ∈ l, isDigitChar ch = true) : parseDigits l = some (digitsVal l) := by
  rw [parseDigits, if_pos]
  exact ⟨hne, List.all_eq_true.mpr hd⟩

theorem splitDot_ne_nil (l : List Char) : splitDot l ≠ [] := by
  cases l with
  | nil => simp [splitDot]
  | cons ch rest =>
    rw [splitDot]
    split
    · simp
    · cases hs : splitDot rest <;> simp

theorem splitDot_no_dot {l : List Char} (h : '.' ∉ l) : splitDot l = [l] := by
  induction l with
  | nil => rfl
  | cons ch rest ih =>
    have hch : ch ≠ '.' := fun he => h (he ▸ List.mem_cons_self ch rest)
    have hrest : '.' ∉ rest := fun he => h (List.mem_cons_of_mem ch he)
    rw [splitDot, if_neg hch, ih hrest]

theorem splitDot_append {w rest : List Char} (h : '.' ∉ w) :
    splitDot (w ++ '.' :: rest) = w :: splitDot rest := by
  induction w with
  | nil =>
    show splitDot ('.' :: rest) = [] :: splitDot rest
    rw [splitDot, if_pos rfl]
  | cons ch w ih =>
    have hch : ch ≠ '.' := fun he => h (he ▸ List.mem_cons_self ch w)
    have hw : '.' ∉ w := fun he => h (List.mem_cons_of_mem ch he)
    show splitDot (ch :: (w ++ '.' :: rest)) = (ch :: w) :: splitDot rest
    rw [splitDot, if_neg hch, ih hw]

theorem rstripChar_last_ne (l : List Char) (ch c : Char) (h : ch ≠ c) :
    rstripChar (l ++ [ch]) c = l ++ [ch] := by
  rw [rstripChar, List.reverse_append, List.reverse_singleton]
  show ((ch :: l.reverse).dropWhile _).reverse = _
  rw [List.dropWhile_cons_of_neg (by simpa using h)]
  simp

theorem natDigitChars_concat (m : Nat) (hm : m ≠ 0) :
    ∃ A, natDigitChars m = A ++ [digitChar (m % 10)] := by
  rw [natDigitChars, if_neg hm, natDigitsLE_eq,
    Nat.digits_def' (by norm_num : 1 < 10) (Nat.pos_of_ne_zero hm)]
  exact ⟨(Nat.digits 10 (m / 10)).reverse.map digitChar, by simp⟩

/-! ### Value lemmas for the context-rounded decimal quotient -/

theorem coeff_exp_val (c z d n : Nat) (h : c * 10 ^ z = n) :
    (c : ℚ) * (10 : ℚ) ^ ((z : ℤ) - d) = (n : ℚ) / 10 ^ d := by
  rw [zpow_sub₀ (by norm_num : (10 : ℚ) ≠ 0), ← h]
  push_cast
  rw [zpow_natCast, zpow_natCast]
  field_simp

theorem divResult_fst_pos (n d : Nat) (hn : n ≠ 0) : 0 < (divResult n d).1 := by
  obtain ⟨hspec, -⟩ := trailingZeros_spec n hn
  simp only [divResult]
  set z := trailingZeros n with hz
  set c := n / 10 ^ z with hc
  have hc0 : 0 < c := by
    rcases Nat.eq_zero_or_pos c with h | h
    · rw [h, zero_mul] at hspec
      exact absurd hspec.symm hn
    · exact h
  split
  · split
    · positivity
    · exact hc0
  · rename_i hk
    push_neg at hk
    simp only [roundSigHE]
    rw [if_neg (by omega)]
    have h10 : 10 ^ numDigits c ≤ 10 * c := pow_numDigits_le c (by omega)
    have hpow : 10 ^ (numDigits c - 1) ≤ c := by
      have he : numDigits c - 1 + 1 = numDigits c := by omega
      have h2 : 10 * 10 ^ (numDigits c - 1) ≤ 10 * c := by
        calc 10 * 10 ^ (numDigits c - 1) = 10 ^ (numDigits c - 1 + 1) := (pow_succ' 10 _).symm
          _ = 10 ^ numDigits c := by rw [he]
          _ ≤ 10 * c := h10
      omega
    have hshift : 10 ^ (numDigits c - 28) ≤ c := by
      calc 10 ^ (numDigits c - 28) ≤ 10 ^ (numDigits c - 1) :=
            Nat.pow_le_pow_right (by norm_num) (by omega)
        _ ≤ c := hpow
    have hbase : 1 ≤ c / 10 ^ (numDigits c - 28) := by
      rw [Nat.one_le_div_iff (by positivity)]
      exact hshift
    split <;> split
    · norm_num
    · norm_num
    · norm_num
    · exact hbase

theorem pyDivPow10_pos {n : Nat} (d : Nat) (hn : n ≠ 0) : 0 < pyDivPow10 n d := by
  rw [pyDivPow10, decValQ]
  have h1 : (0 : ℚ) < ((divResult n d).1 : ℚ) := by
    exact_mod_cast divResult_fst_pos n d hn
  have h2 : (0 : ℚ) < (10 : ℚ) ^ (divResult n d).2 := by positivity
  positivity

theorem pyDivPow10_eq_of_representable {n : Nat} (hrep : exactlyRepresentable n)
    (d : Nat) : pyDivPow10 n d = (n : ℚ) / 10 ^ d := by
  by_cases hn : n = 0
  · subst hn
    simp only [pyDivPow10, decValQ, divResult]
    rw [show trailingZeros 0 = 0 from rfl]
    rw [show (0 : Nat) / 10 ^ 0 = 0 from rfl, show numDigits 0 = 0 from rfl]
    rw [if_pos (by norm_num)]
    split <;> simp
  · obtain ⟨hspec, -⟩ := trailingZeros_spec n hn
    have hk : numDigits (n / 10 ^ trailingZeros n) ≤ 28 := hrep
    simp only [pyDivPow10, decValQ, divResult]
    set z := trailingZeros n with hz
    set c := n / 10 ^ z with hc
    rw [if_pos hk]
    by_cases hdz : d ≤ z
    · rw [if_pos hdz]
      have hple : min (z - d) (28 - numDigits c) ≤ z - d := min_le_left _ _
      set p := min (z - d) (28 - numDigits c) with hp
      have hzp : c * 10 ^ p * 10 ^ (z - p) = n := by
        rw [mul_assoc, ← pow_add]
        have hpz : p + (z - p) = z := by omega
        rw [hpz]
        exact hspec
      have hee : ((z - d : Nat) : Int) - (p : Int) = ((z - p : Nat) : Int) - (d : Int) := by
        omega
      rw [hee]
      exact coeff_exp_val (c * 10 ^ p) (z - p) d n hzp
    · rw [if_neg hdz]
      exact coeff_exp_val c z d n hspec

/-! ### Message-prefix helpers -/

theorem startsWithError_append {a : String} (b : String) (h : startsWithError a) :
    startsWithError (a ++ b) := by
  obtain ⟨t, ht⟩ := h
  exact ⟨t ++ b, by rw [ht, String.append_assoc]⟩

theorem startsWithSuccess_append {a : String} (b : String) (h : startsWithSuccess a) :
    startsWithSuccess (a ++ b) := by
  obtain ⟨t, ht⟩ := h
  exact ⟨t ++ b, by rw [ht, String.append_assoc]⟩

/-! ### C7: health-factor scaling and infinity rule -/

/-- C7 counterexample: the claim asserts `healthFactor = raw/1e18` for
*every* strictly positive raw word, but `Decimal(raw) / Decimal(10**18)`
rounds to the default context's 28 significant digits: at
`raw = 10^28 + 1` (29 significant digits) the program's health factor is
exactly `10^10`, not `(10^28 + 1)/10^18`. -/
theorem C7_counterexample :
    (get_user_account_data ⟨0, 0, 0, 0, 0, 10 ^ 28 + 1⟩).healthFactor =
      .fin ((10 : ℚ) ^ 10) ∧
    ((10 : ℚ) ^ 10) ≠ ((10 : ℚ) ^ 28 + 1) / 10 ^ 18 := by
  constructor
  · simp only [get_user_account_data]
    rw [if_pos (by norm_num)]
    have hdr : divResult (10 ^ 28 + 1) 18 = (10 ^ 27, -17) := by decide
    rw [pyDivPow10, hdr, decValQ]
    norm_num
  · intro h
    have h18 : ((10 : ℚ) ^ 18) ≠ 0 := by positivity
    rw [eq_div_iff h18] at h
    norm_num at h

/-- C7 as amended: the health factor is the default-context `Decimal`
quotient of the raw word by `1e18` when the word is strictly positive —
equal to `raw/1e18` exactly whenever the word has at most 28 significant
digits (which covers every raw value below `10^28`, hence the example
`500000000000000000 → 0.5`) and rounded half-even to 28 significant digits
otherwise — and `Decimal('Infinity')` when the word is zero (the uint256
word is never negative). -/
theorem C7_amended (raw : RawAccountData) :
    (raw.healthFactor = 0 → (get_user_account_data raw).healthFactor = .infinity) ∧
    (0 < raw.healthFactor →
      (get_user_account_data raw).healthFactor =
        .fin (pyDivPow10 raw.healthFactor 18)) ∧
    (0 < raw.healthFactor → exactlyRepresentable raw.healthFactor →
      (get_user_account_data raw).healthFactor =
        .fin ((raw.healthFactor : ℚ) / 10 ^ 18)) ∧
    (raw.healthFactor = 500000000000000000 →
      (get_user_account_data raw).healthFactor = .fin (1 / 2)) := by
  refine ⟨fun h => ?_, fun h => ?_, fun h hrep => ?_, fun h => ?_⟩
  · simp [get_user_account_data, h]
  · simp only [get_user_account_data]
    rw [if_pos h]
  · simp only [get_user_account_data]
    rw [if_pos h, pyDivPow10_eq_of_representable hrep]
  · simp only [get_user_account_data, h]
    rw [if_pos (by norm_num),
      pyDivPow10_eq_of_representable (by rw [exactlyRepresentable]; decide) 18]
    norm_num

/-- Witness for C7 at raw health factors `500000000000000000` and `0`. -/
theorem C7_witness :
    (get_user_account_data ⟨0, 0, 0, 0, 0, 500000000000000000⟩).healthFactor =
      .fin (1 / 2) ∧
    (get_user_account_data ⟨0, 0, 0, 0, 0, 0⟩).healthFactor = .infinity :=
  ⟨(C7_amended _).2.2.2 rfl, (C7_amended _).1 rfl⟩

/-! ### C9: the max sentinel -/

/-- C9: `"max"` converts to `2^256 - 1` for every decimal precision, and
the raw sentinel is never displayed in a success message: the withdraw
success message shows `"all available"` and the repay success message shows
`"all outstanding"` in place of the amount. -/
theorem C9_max_sentinel :
    (∀ d : Nat, format_amount_with_decimals "max" d = .ok (2 ^ 256 - 1)) ∧
    withdrawAmountDisplay "max" = "all available" ∧
    repayAmountDisplay "max" = "all outstanding" := by
  refine ⟨fun d => ?_, rfl, rfl⟩
  rw [format_amount_with_decimals, if_pos rfl]

/-! ### C5: rejection of non-numeral amount strings -/

/-- C5 counterexample: the claim says every negative numeral string such as
`"-1"` is rejected with an invalid-amount error, but
`format_amount_with_decimals` feeds the whole part through Python `int`,
which accepts signed numerals: `"-1"` with 6 decimals is *accepted* and
produces the negative atomic amount `-1000000`. -/
theorem C5_counterexample :
    format_amount_with_decimals "-1" 6 = .ok (-1000000) := by decide

/-- C5 as amended: plain-notation strings whose parts fail Python `int`
parsing are rejected with the invalid-amount error (e.g. `"abc"`, or
`"1.2.3"` with too many dots), but signed numerals are accepted — `"-1"`
yields `-(10 ^ d)` for every precision `d` instead of an error. -/
theorem C5_amended :
    (∀ d : Nat, format_amount_with_decimals "-1" d = .ok (-(10 : Int) ^ d)) ∧
    (∀ d : Nat, format_amount_with_decimals "abc" d = .error (.invalidFormat "abc")) ∧
    (∀ d : Nat, format_amount_with_decimals "1.2.3" d = .error (.invalidFormat "1.2.3")) := by
  refine ⟨fun d => ?_, fun d => rfl, fun d => rfl⟩
  show Except.ok ((-1 : Int) * 10 ^ d) = _
  rw [neg_one_mul]

/-! ### C8: risk classification boundaries -/

/-- C8 counterexample: the claim places a health factor of exactly 1.1 in
the Caution band, but the source compares the `Decimal` health factor
against the *float* literal `1.1` (whose exact value is
4953959590107546/2^52 > 11/10), so the on-chain raw value
`1100000000000000000` — exactly 1.1 — classifies as Danger. -/
theorem C8_counterexample :
    (get_user_account_data ⟨0, 0, 0, 0, 0, 1100000000000000000⟩).healthFactor =
      .fin (11 / 10) ∧
    riskBand (.fin (11 / 10)) = .danger ∧ RiskBand.danger ≠ RiskBand.caution := by
  refine ⟨?_, ?_, by decide⟩
  · simp only [get_user_account_data]
    rw [if_pos (by norm_num),
      pyDivPow10_eq_of_representable (by rw [exactlyRepresentable]; decide) 18]
    norm_num
  · simp only [riskBand]
    rw [if_neg (by norm_num), if_neg (by norm_num [float11])]

/-- C8 as amended: classification is a pure total function of the health
factor with boundaries `+infinity → NoDebt`, `hf ≥ 2 → Healthy`,
`float11 ≤ hf < 2 → Caution` and `hf < float11 → Danger`, where `float11 =
4953959590107546/2^52 ≈ 1.10000000000000008882` is the binary float written
`1.1` in the source; in particular hf 2.0 is Healthy, 1.9999 is Caution,
1.0999 is Danger, and exactly 1.1 is Danger (not Caution).  A liquidation
warning is produced exactly for the Danger band and embeds the health
factor to two decimal places. -/
theorem C8_amended :
    riskBand .infinity = .noDebt ∧
    (∀ q : ℚ,
      (riskBand (.fin q) = .healthy ↔ 2 ≤ q) ∧
      (riskBand (.fin q) = .caution ↔ float11 ≤ q ∧ q < 2) ∧
      (riskBand (.fin q) = .danger ↔ q < float11)) ∧
    (riskBand (.fin 2) = .healthy ∧ riskBand (.fin (19999 / 10000)) = .caution ∧
      riskBand (.fin (10999 / 10000)) = .danger ∧ riskBand (.fin (11 / 10)) = .danger) ∧
    (∀ q : ℚ, q < float11 → borrowWarningText (.fin q) =
      "\n⚠️ WARNING: Your health factor is now " ++ formatFixed 2 q
        ++ ", which is dangerously low. Consider repaying some debt or adding more collateral to avoid liquidation.") ∧
    (∀ q : ℚ, float11 ≤ q → borrowWarningText (.fin q) = "") ∧
    borrowWarningText .infinity = "" := by
  have hf2 : float11 < 2 := by norm_num [float11]
  refine ⟨rfl, fun q => ?_,
    ⟨by simp only [riskBand]; rw [if_pos (by norm_num)],
      by simp only [riskBand]; rw [if_neg (by norm_num), if_pos (by norm_num [float11])],
      by simp only [riskBand]; rw [if_neg (by norm_num), if_neg (by norm_num [float11])],
      by simp only [riskBand]; rw [if_neg (by norm_num), if_neg (by norm_num [float11])]⟩,
    fun q hq => ?_, fun q hq => ?_, rfl⟩
  · simp only [riskBand]
    split_ifs with h1 h2
    · refine ⟨⟨fun _ => h1, fun _ => rfl⟩, ⟨fun h => absurd h (by decide), ?_⟩,
        ⟨fun h => absurd h (by decide), ?_⟩⟩
      · rintro ⟨-, hlt⟩
        exact absurd h1 (not_le.mpr hlt)
      · intro hlt
        exact absurd h1 (not_le.mpr (lt_trans hlt hf2))
    · refine ⟨⟨fun h => absurd h (by decide), fun h => absurd h h1⟩,
        ⟨fun _ => ⟨h2, not_le.mp h1⟩, fun _ => rfl⟩,
        ⟨fun h => absurd h (by decide), ?_⟩⟩
      intro hlt
      exact absurd h2 (not_le.mpr hlt)
    · refine ⟨⟨fun h => absurd h (by decide), fun h => absurd h h1⟩,
        ⟨fun h => absurd h (by decide), ?_⟩,
        ⟨fun _ => not_le.mp h2, fun _ => rfl⟩⟩
      rintro ⟨hge, -⟩
      exact absurd hge h2
  · rw [borrowWarningText, if_pos]
    · rfl
    · exact ⟨by simp [pyLt, hq], by simp⟩
  · rw [borrowWarningText, if_neg]
    rintro ⟨hlt, -⟩
    simp [pyLt] at hlt
    exact absurd hq (not_le.mpr hlt)

/-- Witness for C8 at concrete health factors 1 (Danger, warning emitted)
and 2 (warning suppressed). -/
theorem C8_witness :
    borrowWarningText (.fin 1) =
      "\n⚠️ WARNING: Your health factor is now " ++ formatFixed 2 1
        ++ ", which is dangerously low. Consider repaying some debt or adding more collateral to avoid liquidation." ∧
    borrowWarningText (.fin 2) = "" :=
  ⟨C8_amended.2.2.2.1 1 (by norm_num [float11]),
    C8_amended.2.2.2.2.1 2 (by norm_num [float11])⟩

/-! ### C2: unsafe max withdraw -/

/-- C2: when the account read shows strictly positive `totalDebtBase`,
`withdraw` with amount `"max"` returns the unsafe-max-withdraw error and
performs no transaction submission, regardless of every other field of the
account snapshot (in particular collateral size). -/
theorem C2_unsafe_max_withdraw (env : Env) (args : WithdrawArgs)
    (pool : String) (hpool : POOL_ADDRESSES env.network = some pool)
    (asset : String) (hasset : ASSET_ADDRESSES env.network args.asset_id = some asset)
    (d : Nat) (hdec : env.decimals = .ok d)
    (r1 : RawAccountData) (h1 : env.accountData1 = .ok r1)
    (r2 : RawAccountData) (h2 : env.accountData2 = .ok r2)
    (hdebt : 0 < r2.totalDebtBase)
    (hmax : args.amount = "max") :
    withdraw env args =
      ("Error: You have active borrows. You cannot withdraw all your collateral. Specify an exact amount instead.", []) := by
  have hdebtQ : 0 < (get_user_account_data r2).totalDebtBase := by
    simp only [get_user_account_data]
    exact pyDivPow10_pos 18 (by omega)
  have hparse : format_amount_with_decimals "max" d = .ok (2 ^ 256 - 1) := by
    rw [format_amount_with_decimals, if_pos rfl]
  simp only [withdraw, hpool, hasset, hdec, hmax, hparse, h1, h2]
  rw [if_pos ⟨hdebtQ, trivial⟩]

/-- Witness for C2: a concrete environment with 1 ETH of debt. -/
theorem C2_witness :
    withdraw envC2 ⟨"weth", "max"⟩ =
      ("Error: You have active borrows. You cannot withdraw all your collateral. Specify an exact amount instead.", []) :=
  C2_unsafe_max_withdraw envC2 ⟨"weth", "max"⟩ _ rfl _ rfl _ rfl _ rfl _ rfl
    (by norm_num [envC2, baseEnv, debtRaw]) rfl

/-! ### C3: insufficient balance -/

/-- C3: for `supply` with any amount, and for `repay` with any amount other
than `"max"`, a wallet balance strictly below the requested atomic amount
produces the insufficient-balance error naming both the held human-readable
amount and the requested amount, and the operation submits no transaction
(neither approval nor protocol call). -/
theorem C3_insufficient_balance :
    (∀ (env : Env) (args : SupplyArgs) (pool asset : String) (d : Nat) (amt : Int)
        (bal : Nat),
      POOL_ADDRESSES env.network = some pool →
      ASSET_ADDRESSES env.network args.asset_id = some asset →
      env.decimals = .ok d →
      format_amount_with_decimals args.amount d = .ok amt →
      env.balance = .ok bal →
      (bal : Int) < amt →
      supply env args =
        ("Error: Insufficient balance. You have " ++ format_amount_from_decimals bal d
          ++ " " ++ args.asset_id ++ ", but trying to supply " ++ args.amount, [])) ∧
    (∀ (env : Env) (args : RepayArgs) (pool asset : String) (d : Nat) (amt : Int)
        (bal : Nat),
      args.amount ≠ "max" →
      POOL_ADDRESSES env.network = some pool →
      ASSET_ADDRESSES env.network args.asset_id = some asset →
      env.decimals = .ok d →
      format_amount_with_decimals args.amount d = .ok amt →
      env.balance = .ok bal →
      (bal : Int) < amt →
      repay env args =
        ("Error: Insufficient balance. You have " ++ format_amount_from_decimals bal d
          ++ " " ++ args.asset_id ++ ", but trying to repay " ++ args.amount, [])) := by
  constructor
  · intro env args pool asset d amt bal hpool hasset hdec hparse hbal hlt
    simp only [supply, hpool, hasset, hdec, hparse, hbal]
    rw [if_pos hlt]
  · intro env args pool asset d amt bal hnmax hpool hasset hdec hparse hbal hlt
    simp only [repay, hpool, hasset, hdec, hparse, hbal]
    rw [if_pos hnmax, if_pos hlt]

/-- Witness for C3: supplying and repaying 100 USDC with 50 USDC in the
wallet. -/
theorem C3_witness :
    supply envC3 ⟨"usdc", "100"⟩ =
      ("Error: Insufficient balance. You have 50 usdc, but trying to supply 100", []) ∧
    repay envC3 ⟨"usdc", "100", 2⟩ =
      ("Error: Insufficient balance. You have 50 usdc, but trying to repay 100", []) := by
  constructor
  · have h := C3_insufficient_balance.1 envC3 ⟨"usdc", "100"⟩
      "0xa238dd80c259a72e81d7e4664a9801593f98d1c5"
      "0x833589fCD6eDb6E08f4c7C32D4f71b54bdA02913" 6 100000000 50000000
      rfl rfl rfl (by decide) rfl (by decide)
    exact h.trans (by decide)
  · have h := C3_insufficient_balance.2 envC3 ⟨"usdc", "100", 2⟩
      "0xa238dd80c259a72e81d7e4664a9801593f98d1c5"
      "0x833589fCD6eDb6E08f4c7C32D4f71b54bdA02913" 6 100000000 50000000
      (by decide) rfl rfl rfl (by decide) rfl (by decide)
    exact h.trans (by decide)

/-! ### C10: borrow with "max" always errors before any transaction -/

/-- C10: for every environment (any network, asset, account state and
wallet), `borrow` with amount `"max"` returns an error string and submits
no transaction: the amount itself converts through the sentinel, but the
capacity pre-check parses the literal request string with the `Decimal`
constructor, which fails for `"max"` inside the account-data try-block, so
no path past the pre-checks is reachable. -/
theorem C10_borrow_max_always_errors (env : Env) (args : BorrowArgs)
    (hmax : args.amount = "max") :
    startsWithError (borrow env args).1 ∧ (borrow env args).2 = [] := by
  obtain ⟨aid, amt, irm⟩ := args
  replace hmax : amt = "max" := hmax
  subst hmax
  suffices h : ∃ msg, borrow env ⟨aid, "max", irm⟩ = (msg, []) ∧ startsWithError msg by
    obtain ⟨msg, heq, hsw⟩ := h
    rw [heq]
    exact ⟨hsw, rfl⟩
  have hparse : ∀ d : Nat, format_amount_with_decimals "max" d = .ok (2 ^ 256 - 1) := by
    intro d
    rw [format_amount_with_decimals, if_pos rfl]
  have hdecp : parseDecimalChars ("max" : String).data = none := rfl
  cases hp : POOL_ADDRESSES env.network with
  | none =>
    exact ⟨"Error borrowing from Aave: " ++ keyErrorText env.network,
      by simp only [borrow, hp],
      startsWithError_append _ ⟨" borrowing from Aave: ", rfl⟩⟩
  | some pool =>
  cases ha : ASSET_ADDRESSES env.network aid with
  | none =>
    exact ⟨"Error borrowing from Aave: Asset " ++ aid ++ " not supported on " ++ env.network,
      by simp only [borrow, hp, ha],
      startsWithError_append _ (startsWithError_append _
        (startsWithError_append _ ⟨" borrowing from Aave: Asset ", rfl⟩))⟩
  | some asset =>
  cases hd : env.decimals with
  | error e =>
    exact ⟨"Error borrowing from Aave: " ++ e,
      by simp only [borrow, hp, ha, hd],
      startsWithError_append _ ⟨" borrowing from Aave: ", rfl⟩⟩
  | ok d =>
  cases h1 : env.accountData1 with
  | error e =>
    exact ⟨"Error checking account data: " ++ e,
      by simp only [borrow, hp, ha, hd, hparse, h1],
      startsWithError_append _ ⟨" checking account data: ", rfl⟩⟩
  | ok raw =>
  by_cases hc : (get_user_account_data raw).totalCollateralBase = 0
  · refine ⟨"Error: You have no collateral supplied. Supply assets as collateral before borrowing.",
      ?_, ⟨": You have no collateral supplied. Supply assets as collateral before borrowing.", rfl⟩⟩
    simp only [borrow, hp, ha, hd, hparse, h1]
    rw [if_pos hc]
  · cases hs : env.symbol with
    | error e =>
      refine ⟨"Error checking account data: " ++ e, ?_,
        startsWithError_append _ ⟨" checking account data: ", rfl⟩⟩
      simp only [borrow, hp, ha, hd, hparse, h1, hs]
      rw [if_neg hc]
    | ok sym =>
      refine ⟨"Error checking account data: " ++ conversionSyntaxText, ?_,
        startsWithError_append _ ⟨" checking account data: ", rfl⟩⟩
      simp only [borrow, hp, ha, hd, hparse, h1, hs, hdecp]
      rw [if_neg hc]

/-- Witness for C10 on the healthy base environment. -/
theorem C10_witness :
    startsWithError (borrow baseEnv ⟨"weth", "max", 2⟩).1 ∧
      (borrow baseEnv ⟨"weth", "max", 2⟩).2 = [] :=
  C10_borrow_max_always_errors baseEnv ⟨"weth", "max", 2⟩ rfl

/-! ### C1: revert handling via receipt status -/

/-- C1 counterexample: `supply` never inspects the receipt status.  In an
environment whose execute receipt has status 0 (non-success), supply still
returns the success message — it is not a `TransactionReverted` error, so
the claim fails for the supply operation. -/
theorem C1_counterexample :
    envC1.execOutcome = .ok ("0xtxhash", 0) ∧
    (supply envC1 ⟨"weth", "1"⟩).1 =
      "Successfully supplied 1 WETH to Aave.\nTransaction hash: 0xtxhash" ∧
    ¬ startsWithError (supply envC1 ⟨"weth", "1"⟩).1 := by
  refine ⟨rfl, by decide, ?_⟩
  rintro ⟨t, ht⟩
  have : (supply envC1 ⟨"weth", "1"⟩).1.data =
      "Successfully supplied 1 WETH to Aave.\nTransaction hash: 0xtxhash".data := by decide
  rw [ht, String.data_append] at this
  simp at this

/-- C1 as amended: for withdraw, borrow and repay (but not supply), when
the execute transaction is submitted and the receipt carries a non-success
status, the operation returns the transaction-failed error with its
operation-specific hint, never a success message. -/
theorem C1_amended :
    (∀ (env : Env) (args : WithdrawArgs) (h : String) (st : Nat),
      env.execOutcome = .ok (h, st) → st ≠ 1 →
      Tx.protocolCall ∈ (withdraw env args).2 →
      (withdraw env args).1 =
        "Error: Transaction failed. Your health factor may be at risk if you withdraw this amount.") ∧
    (∀ (env : Env) (args : BorrowArgs) (h : String) (st : Nat),
      env.execOutcome = .ok (h, st) → st ≠ 1 →
      Tx.protocolCall ∈ (borrow env args).2 →
      (borrow env args).1 =
        "Error: Transaction failed. The borrow may exceed your available borrowing capacity.") ∧
    (∀ (env : Env) (args : RepayArgs) (h : String) (st : Nat),
      env.execOutcome = .ok (h, st) → st ≠ 1 →
      Tx.protocolCall ∈ (repay env args).2 →
      (repay env args).1 =
        "Error: Transaction failed. You may not have borrowed this asset with the specified interest rate mode.") := by
  refine ⟨fun env args h st hexec hst hmem => ?_, fun env args h st hexec hst hmem => ?_,
    fun env args h st hexec hst hmem => ?_⟩
  · revert hmem
    unfold withdraw
    repeat' split
    all_goals simp_all
    all_goals repeat' split
    all_goals simp_all
  · revert hmem
    unfold borrow
    repeat' split
    all_goals simp_all
    all_goals repeat' split
    all_goals simp_all
  · revert hmem
    unfold repay
    repeat' split
    all_goals simp_all

/-- Witness for C1: withdrawing in an environment whose receipt status is 0. -/
theorem C1_witness :
    (withdraw envC1 ⟨"weth", "1"⟩).1 =
      "Error: Transaction failed. Your health factor may be at risk if you withdraw this amount." :=
  C1_amended.1 envC1 ⟨"weth", "1"⟩ "0xtxhash" 0 rfl (by decide)
    (of_decide_eq_true (by with_unfolding_all rfl))

/-! ### C4: tolerated failure of the post-operation metrics re-fetch -/

/-- C4 counterexample: the claim says borrow falls back to +infinity when
the after-the-fact metrics re-fetch fails; the source falls back to
`Decimal("0")` instead ("# Default to show warning"), so the success
message reports a change to `0.00` and appends the danger warning — not an
infinite health factor. -/
theorem C4_counterexample :
    envC4.afterData = .error "rpc down" ∧
    borrowNewHealth envC4.afterData = .fin 0 ∧
    borrowNewHealth envC4.afterData ≠ .infinity ∧
    (borrow envC4 ⟨"weth", "0.1", 2⟩).1 =
      "Successfully borrowed 0.1 WETH from Aave with variable interest rate.\nTransaction hash: 0xtxhash\nHealth factor changed from 1.50 to 0.00\n⚠️ WARNING: Your health factor is now 0.00, which is dangerously low. Consider repaying some debt or adding more collateral to avoid liquidation." := by
  exact ⟨rfl, rfl, by decide, of_decide_eq_true (by with_unfolding_all rfl)⟩

/-- C4 as amended: a failure of the post-operation account-metrics
re-fetch never turns a succeeded operation into a failure; supply and
repay fall back to the "before" health factor, withdraw falls back to
+infinity, and borrow falls back to `Decimal("0")` (not +infinity), which
triggers the danger warning. -/
theorem C4_amended :
    (∀ (e : String) (fb : PyDecimal), healthOr (.error e) fb = fb) ∧
    (∀ e : String, healthOrInfinity (.error e) = .infinity) ∧
    (∀ e : String, borrowNewHealth (.error e) = .fin 0) ∧
    (∀ (env : Env) (args : SupplyArgs) (h : String) (e sym : String),
      env.execOutcome = .ok (h, 1) → env.afterData = .error e → env.symbol = .ok sym →
      Tx.protocolCall ∈ (supply env args).2 → startsWithSuccess (supply env args).1) ∧
    (∀ (env : Env) (args : WithdrawArgs) (h : String) (e sym : String),
      env.execOutcome = .ok (h, 1) → env.afterData = .error e → env.symbol = .ok sym →
      Tx.protocolCall ∈ (withdraw env args).2 → startsWithSuccess (withdraw env args).1) ∧
    (∀ (env : Env) (args : BorrowArgs) (h : String) (e : String),
      env.execOutcome = .ok (h, 1) → env.afterData = .error e →
      Tx.protocolCall ∈ (borrow env args).2 → startsWithSuccess (borrow env args).1) ∧
    (∀ (env : Env) (args : RepayArgs) (h : String) (e sym : String),
      env.execOutcome = .ok (h, 1) → env.afterData = .error e → env.symbol = .ok sym →
      Tx.protocolCall ∈ (repay env args).2 → startsWithSuccess (repay env args).1) := by
  refine ⟨fun e fb => rfl, fun e => rfl, fun e => rfl,
    fun env args h e sym hexec haft hsym hmem => ?_,
    fun env args h e sym hexec haft hsym hmem => ?_,
    fun env args h e hexec haft hmem => ?_,
    fun env args h e sym hexec haft hsym hmem => ?_⟩
  · revert hmem
    unfold supply
    repeat' split
    all_goals try simp_all
    all_goals try (repeat' split)
    all_goals try simp_all
    all_goals repeat apply startsWithSuccess_append
    all_goals exact ⟨" supplied ", rfl⟩
  · revert hmem
    unfold withdraw
    repeat' split
    all_goals try simp_all
    all_goals try (repeat' split)
    all_goals try simp_all
    all_goals repeat apply startsWithSuccess_append
    all_goals exact ⟨" withdrew ", rfl⟩
  · revert hmem
    unfold borrow
    repeat' split
    all_goals try simp_all
    all_goals try (repeat' split)
    all_goals try simp_all
    all_goals repeat apply startsWithSuccess_append
    all_goals exact ⟨" borrowed ", rfl⟩
  · revert hmem
    unfold repay
    repeat' split
    all_goals try simp_all
    all_goals try (repeat' split)
    all_goals repeat apply startsWithSuccess_append
    all_goals exact ⟨" repaid ", rfl⟩

/-- Witness for C4: the concrete fallbacks, and a borrow that stays a
success while its after-read fails. -/
theorem C4_witness :
    healthOr (.error "boom") (.fin 3) = .fin 3 ∧
    healthOrInfinity (.error "boom") = .infinity ∧
    borrowNewHealth (.error "boom") = .fin 0 ∧
    startsWithSuccess (borrow envC4 ⟨"weth", "0.1", 2⟩).1 :=
  ⟨C4_amended.1 "boom" (.fin 3), C4_amended.2.1 "boom", C4_amended.2.2.1 "boom",
    C4_amended.2.2.2.2.2.1 envC4 ⟨"weth", "0.1", 2⟩ "0xtxhash" "rpc down" rfl rfl
      (of_decide_eq_true (by with_unfolding_all rfl))⟩

/-! ### C6: round-trip of the amount codec -/

theorem isDigitChar_toNat {ch : Char} (h : isDigitChar ch = true) :
    48 ≤ ch.toNat ∧ ch.toNat ≤ 57 := by
  rw [isDigitChar, Bool.and_eq_true, decide_eq_true_eq, decide_eq_true_eq] at h
  exact h

theorem isDigitChar_ne_special {ch : Char} (h : isDigitChar ch = true) :
    ch ≠ '-' ∧ ch ≠ '+' ∧ ch ≠ '.' ∧ ch ≠ 'e' ∧ ch ≠ 'E' ∧ ch ≠ 'm' := by
  obtain ⟨h1, h2⟩ := isDigitChar_toNat h
  refine ⟨?_, ?_, ?_, ?_, ?_, ?_⟩ <;> intro he <;> subst he <;> simp_all

theorem digitChar_ne_zero {d : Nat} (h : d < 10) (h0 : d ≠ 0) : digitChar d ≠ '0' := by
  interval_cases d <;> simp_all <;> decide

theorem no_dot_natDigitChars {n : Nat} : '.' ∉ natDigitChars n := by
  intro h
  exact (isDigitChar_ne_special (isDigitChar_of_mem_natDigitChars h)).2.2.1 rfl

theorem no_dot_padDigits {f m : Nat} : '.' ∉ padDigits f m := by
  intro h
  exact (isDigitChar_ne_special (isDigitChar_of_mem_padDigits h)).2.2.1 rfl

theorem containsE_eq_false {l : List Char}
    (h : ∀ ch ∈ l, isDigitChar ch = true ∨ ch = '.') : containsE l = false := by
  rw [containsE, List.any_eq_false]
  intro ch hch
  rcases h ch hch with hd | hd
  · obtain ⟨-, -, -, he, hE, -⟩ := isDigitChar_ne_special hd
    simp [he, hE]
  · subst hd
    decide

theorem mk_ne_max {l : List Char}
    (h : ∀ ch ∈ l, isDigitChar ch = true ∨ ch = '.') : String.mk l ≠ "max" := by
  intro heq
  have hl : l = ['m', 'a', 'x'] := congrArg String.data heq
  have := h 'm' (by rw [hl]; exact List.mem_cons_self _ _)
  rcases this with hd | hd
  · exact (isDigitChar_ne_special hd).2.2.2.2.2 rfl
  · exact absurd hd (by decide)

theorem parsePyInt_all_digits (l : List Char) (hne : l ≠ [])
    (hd : ∀ ch ∈ l, isDigitChar ch = true) :
    parsePyInt l = some ((digitsVal l : Nat) : Int) := by
  cases l with
  | nil => exact absurd rfl hne
  | cons ch r =>
    obtain ⟨hdash, hplus, -, -, -, -⟩ :=
      isDigitChar_ne_special (hd ch (List.mem_cons_self _ _))
    rw [parsePyInt, if_neg hdash, if_neg hplus,
      parseDigits_all_digits _ (by simp) hd]
    rfl

/-- C6 counterexample: `a = 15`, `d = 11` is exactly representable, but
`fromAtomic` renders it as scientific `"1.5E-10"` and the trailing-zero
strip corrupts the exponent to `"1.5E-1"`, so the round trip returns
`15000000000`, not `15`. -/
theorem C6_counterexample :
    exactlyRepresentable 15 ∧
    format_amount_from_decimals 15 11 = "1.5E-1" ∧
    format_amount_with_decimals (format_amount_from_decimals 15 11) 11 =
      .ok 15000000000 ∧
    (15000000000 : Int) ≠ 15 := by
  refine ⟨?_, by decide, by decide, by decide⟩
  rw [exactlyRepresentable]
  decide

theorem parse_plain_int (C d : Nat) :
    format_amount_with_decimals (String.mk (natDigitChars C)) d =
      .ok ((C : Int) * 10 ^ d) := by
  have hd : ∀ ch ∈ natDigitChars C, isDigitChar ch = true ∨ ch = '.' :=
    fun ch hch => Or.inl (isDigitChar_of_mem_natDigitChars hch)
  have h1 : (String.mk (natDigitChars C)).data = natDigitChars C := rfl
  simp only [format_amount_with_decimals, h1, if_neg (mk_ne_max hd),
    containsE_eq_false hd, Bool.false_eq_true, if_false,
    splitDot_no_dot no_dot_natDigitChars, parsePyInt_natDigitChars]

theorem parse_plain_frac (W M f z d : Nat) (hfz : f + z = d) (hf : 1 ≤ f)
    (hM : M < 10 ^ f) :
    format_amount_with_decimals
        (String.mk (natDigitChars W ++ '.' :: padDigits f M)) d =
      .ok ((W : Int) * 10 ^ d + ((M * 10 ^ z : Nat) : Int)) := by
  have hdigits : ∀ ch ∈ natDigitChars W ++ '.' :: padDigits f M,
      isDigitChar ch = true ∨ ch = '.' := by
    intro ch hch
    rw [List.mem_append] at hch
    rcases hch with hch | hch
    · exact Or.inl (isDigitChar_of_mem_natDigitChars hch)
    · rcases List.mem_cons.mp hch with hch | hch
      · exact Or.inr hch
      · exact Or.inl (isDigitChar_of_mem_padDigits hch)
  have h1 : (String.mk (natDigitChars W ++ '.' :: padDigits f M)).data =
      natDigitChars W ++ '.' :: padDigits f M := rfl
  have hsplit : splitDot (natDigitChars W ++ '.' :: padDigits f M) =
      [natDigitChars W, padDigits f M] := by
    rw [splitDot_append no_dot_natDigitChars, splitDot_no_dot no_dot_padDigits]
  have hlen : (padDigits f M).length = f := padDigits_length hM hf
  have hnotlt : ¬ d < f := by omega
  have hfracdig : ∀ ch ∈ padDigits f M ++ List.replicate (d - f) '0',
      isDigitChar ch = true := by
    intro ch hch
    rw [List.mem_append] at hch
    rcases hch with hch | hch
    · exact isDigitChar_of_mem_padDigits hch
    · rw [List.eq_of_mem_replicate hch]
      rfl
  have hfracne : padDigits f M ++ List.replicate (d - f) '0' ≠ [] := by
    intro h
    have := congrArg List.length h
    simp [hlen] at this
    omega
  have hfracval : digitsVal (padDigits f M ++ List.replicate (d - f) '0') =
      M * 10 ^ z := by
    rw [digitsVal_append, digitsVal_padDigits, digitsVal_replicate_zero,
      List.length_replicate]
    have : d - f = z := by omega
    rw [this]
    ring
  simp only [format_amount_with_decimals, h1, if_neg (mk_ne_max hdigits),
    containsE_eq_false hdigits, Bool.false_eq_true, if_false, hsplit,
    if_neg hnotlt, hlen, parsePyInt_natDigitChars,
    parsePyInt_all_digits _ hfracne hfracdig, hfracval]

/-- C6 as amended: for every atomic amount `a` that is exactly
representable (at most 28 significant digits) and every decimal precision
`d` such that the rendered string is in plain (non-scientific) notation,
the round trip `toAtomic(fromAtomic(a, d), d)` returns exactly `a`.  (In
scientific notation the round trip can fail: see the counterexample, where
the trailing-zero strip corrupts the printed exponent.) -/
theorem C6_roundtrip (a d : Nat) (hrep : exactlyRepresentable a)
    (hplain : plainNotation a d) :
    format_amount_with_decimals (format_amount_from_decimals a d) d =
      .ok (a : Int) := by
  by_cases ha : a = 0
  · subst ha
    show format_amount_with_decimals "0" d = _
    have h0 : ("0" : String) = String.mk (natDigitChars 0) := rfl
    rw [h0, parse_plain_int 0 d]
    simp
  · obtain ⟨hzspec, hcmod⟩ := trailingZeros_spec a ha
    rcases hplain with h0 | ⟨he, hadj⟩
    · exact absurd h0 ha
    have hk : numDigits (a / 10 ^ trailingZeros a) ≤ 28 := hrep
    set z := trailingZeros a with hzdef
    set c := a / 10 ^ z with hcdef
    have hc0 : c ≠ 0 := by
      intro h0
      rw [h0, zero_mul] at hzspec
      exact ha hzspec.symm
    by_cases hdz : d ≤ z
    · -- exponent is clamped to the ideal exponent 0: an integer string
      have hdiv : divResult a d =
          (c * 10 ^ min (z - d) (28 - numDigits c),
            ((z - d : Nat) : Int) - (min (z - d) (28 - numDigits c) : Nat)) := by
        simp only [divResult]
        rw [if_pos hk, if_pos hdz]
      have hpad : min (z - d) (28 - numDigits c) = z - d := by
        rw [hdiv] at he
        omega
      have hdiv' : divResult a d = (c * 10 ^ (z - d), 0) := by
        rw [hdiv, hpad]
        simp
      have hC0 : c * 10 ^ (z - d) ≠ 0 := by positivity
      have hdecs : decStrChars (c * 10 ^ (z - d)) 0 =
          natDigitChars (c * 10 ^ (z - d)) := by
        simp only [decStrChars]
        rw [if_pos ⟨le_refl 0, by omega⟩, if_pos trivial]
      have hfrom : format_amount_from_decimals a d =
          String.mk (natDigitChars (c * 10 ^ (z - d))) := by
        simp only [format_amount_from_decimals, hdiv', hdecs]
        rw [if_neg ha, if_neg no_dot_natDigitChars]
      rw [hfrom, parse_plain_int]
      congr 1
      have : c * 10 ^ (z - d) * 10 ^ d = a := by
        rw [mul_assoc, ← pow_add]
        have : z - d + d = z := by omega
        rw [this]
        exact hzspec
      rw [← this]
      push_cast
      ring
    · -- a genuine fractional rendering
      have hdiv : divResult a d = (c, (z : Int) - d) := by
        simp only [divResult]
        rw [if_pos hk, if_neg hdz]
      rw [hdiv] at hadj
      set f := d - z with hfdef
      have hf1 : 1 ≤ f := by omega
      set m := c % 10 ^ f with hmdef
      have hm10 : m % 10 = c % 10 := by
        rw [hmdef]
        exact Nat.mod_mod_of_dvd c (dvd_pow_self 10 (by omega))
      have hm0 : m ≠ 0 := by
        intro h0
        rw [h0] at hm10
        exact hcmod hm10.symm
      have hmlt : m < 10 ^ f := Nat.mod_lt c (by positivity)
      have hene : ¬ ((z : Int) - d = 0) := by omega
      have htoNat : (-((z : Int) - d)).toNat = f := by omega
      have hdecs : decStrChars c ((z : Int) - d) =
          natDigitChars (c / 10 ^ f) ++ '.' :: padDigits f m := by
        simp only [decStrChars]
        rw [if_pos ⟨by omega, hadj⟩, if_neg hene, htoNat]
      obtain ⟨A, hA⟩ := natDigitChars_concat m hm0
      have hm10lt : m % 10 < 10 := Nat.mod_lt m (by norm_num)
      have hm10ne : m % 10 ≠ 0 := by
        rw [hm10]
        exact hcmod
      have hlast : natDigitChars (c / 10 ^ f) ++ '.' :: padDigits f m =
          (natDigitChars (c / 10 ^ f) ++
            '.' :: (List.replicate (f - (natDigitChars m).length) '0' ++ A))
            ++ [digitChar (m % 10)] := by
        rw [padDigits, hA]
        simp [List.append_assoc]
      have hstrip : rstripChar (rstripChar
          (natDigitChars (c / 10 ^ f) ++ '.' :: padDigits f m) '0') '.' =
          natDigitChars (c / 10 ^ f) ++ '.' :: padDigits f m := by
        rw [hlast, rstripChar_last_ne _ _ _ (digitChar_ne_zero hm10lt hm10ne),
          rstripChar_last_ne _ _ _ (digitChar_ne_dot hm10lt)]
      have hfrom : format_amount_from_decimals a d =
          String.mk (natDigitChars (c / 10 ^ f) ++ '.' :: padDigits f m) := by
        simp only [format_amount_from_decimals, hdiv, hdecs]
        rw [if_neg ha, if_pos (by simp), hstrip]
      rw [hfrom, parse_plain_frac (c / 10 ^ f) m f z d (by omega) hf1 hmlt]
      congr 1
      have : c / 10 ^ f * 10 ^ d + m * 10 ^ z = a := by
        have hd_eq : d = f + z := by omega
        rw [hd_eq, pow_add, ← mul_assoc, hmdef]
        calc c / 10 ^ f * 10 ^ f * 10 ^ z + c % 10 ^ f * 10 ^ z
            = (c / 10 ^ f * 10 ^ f + c % 10 ^ f) * 10 ^ z := by ring
          _ = c * 10 ^ z := by rw [Nat.div_add_mod']
          _ = a := hzspec
      rw [← this]
      push_cast
      ring

/-- Witness for C6: `a = 123456`, `d = 4` renders as `"12.3456"` and
round-trips. -/
theorem C6_witness :
    exactlyRepresentable 123456 ∧ plainNotation 123456 4 ∧
    format_amount_from_decimals 123456 4 = "12.3456" ∧
    format_amount_with_decimals (format_amount_from_decimals 123456 4) 4 =
      .ok 123456 := by
  refine ⟨?_, ?_, by decide, C6_roundtrip 123456 4 ?_ ?_⟩ <;>
    · first
      | (rw [exactlyRepresentable]; decide)
      | (rw [plainNotation]; decide)

end AaveSpec
